import Mathlib

/-!
Verification of the natural-language specification of `DokuwebTicketClient.js`
(a Node.js HTTP/SOAP client for the Doku@WEB ticket API) against a shallow
embedding of its code in Lean.

The embedding translates the client's five operations (`authenticate`,
`createTicket`, `getKeywords`, `getTicketDetails`, `searchTicketsByCreator`)
into pure Lean functions.  Remote transport is modelled by passing the
outcome of the one transport call each operation makes as an explicit
argument; each operation returns its result (`Except` over error-message
strings, mirroring thrown `Error` objects), the updated client state, and
the list of outgoing transport requests it performed.

The ad-hoc regex-based XML attribute extraction of the source
(`/<ticket\s([^>]+)\/>/` and `/(\w+)="([^"]*)"/g`) is embedded as
executable character-list scanners proved below to follow the JavaScript
regex semantics of those patterns; see the comments on `matchTicketAt` and
`execAttrsF`.
-/

/-! ## Character classes and small string helpers -/

/-- JavaScript `\w` character class: `[A-Za-z0-9_]` (as used by the
attribute regex `/(\w+)="([^"]*)"/g` in the source). -/
def isWordChar (c : Char) : Bool :=
  (('A' ≤ c && c ≤ 'Z') || ('a' ≤ c && c ≤ 'z') || ('0' ≤ c && c ≤ '9') || c = '_')

/-- JavaScript `\s` character class (as used by `/<ticket\s([^>]+)\/>/`),
and also the set of characters removed by JavaScript `String.prototype.trim`:
ASCII whitespace plus the Unicode space separators, line separators and BOM
(written by code point). -/
def isJsSpace (c : Char) : Bool :=
  c = ' ' || c = '\t' || c = '\n' || c = '\r' ||
  c.toNat = 11 || c.toNat = 12 ||
  c.toNat = 160 || c.toNat = 5760 ||
  (8192 <= c.toNat && c.toNat <= 8202) ||
  c.toNat = 8232 || c.toNat = 8233 || c.toNat = 8239 || c.toNat = 8287 ||
  c.toNat = 12288 || c.toNat = 65279

/-- JavaScript `String.prototype.trim` (used on the auth-token response body,
source line 82: `this.authToken = response.data.trim()`). -/
def jsTrim (s : String) : String :=
  (((s.toList.dropWhile isJsSpace).reverse.dropWhile isJsSpace).reverse).asString

/-- Template interpolation of a possibly-`undefined` JavaScript string value:
`none` models `undefined`, which interpolates as the text `undefined`
(as in the error template on source lines 85-87). -/
def optDisplay (o : Option String) : String := o.getD "undefined"

/-- JavaScript `x || d` for an optional string field `x` (source lines
142-150): `undefined` and the empty string are both falsy, so both fall
back to the default. -/
def jsOr (o : Option String) (d : String) : String :=
  match o with
  | none => d
  | some s => if s = "" then d else s

/-- Truthiness of the client's `authToken` field as tested by
`if (!this.authToken)` on source line 97: `null` (modelled `none`) and the
empty string are falsy. -/
def tokenTruthy (o : Option String) : Bool :=
  match o with
  | none => false
  | some s => s ≠ ""

/-- The constructor's `baseUrl.replace(/\/$/, "")` (source line 49):
removes a single trailing slash if present. -/
def stripTrailingSlash (s : String) : String :=
  match s.toList.reverse with
  | '/' :: rest => rest.reverse.asString
  | _ => s

/-- UTF-8 encoding of a Unicode code point, as a list of byte values.
Used by the embeddings of `encodeURIComponent` and of the HTTP Basic
credential encoding. -/
def utf8Bytes (n : Nat) : List Nat :=
  if n < 128 then [n]
  else if n < 2048 then [192 + n / 64, 128 + n % 64]
  else if n < 65536 then [224 + n / 4096, 128 + (n / 64) % 64, 128 + n % 64]
  else [240 + n / 262144, 128 + (n / 4096) % 64, 128 + (n / 64) % 64, 128 + n % 64]

/-- Uppercase hexadecimal digit for a value below 16. -/
def hexDigit (n : Nat) : Char :=
  if n < 10 then Char.ofNat (48 + n) else Char.ofNat (55 + n)

/-- Characters left unescaped by JavaScript `encodeURIComponent`:
alphanumerics and `- _ . ! ~ * ( )` and the apostrophe (code point 39). -/
def uriUnreserved (c : Char) : Bool :=
  (('A' ≤ c && c ≤ 'Z') || ('a' ≤ c && c ≤ 'z') || ('0' ≤ c && c ≤ '9')) ||
  c = '-' || c = '_' || c = '.' || c = '!' || c = '~' || c = '*' ||
  c = '(' || c = ')' || c.toNat = 39

/-- JavaScript `encodeURIComponent` (source line 259: the ticket id is
percent-encoded into the request path). -/
def encodeURIComponent (s : String) : String :=
  ((s.toList.map (fun c =>
    if uriUnreserved c then [c]
    else ((utf8Bytes c.toNat).map
      (fun b => ['%', hexDigit (b / 16), hexDigit (b % 16)])).flatten)).flatten).asString

/-- The standard base64 alphabet. -/
def base64Alphabet : List Char :=
  "ABCDEFGHIJKLMNOPQRSTUVWXYZabcdefghijklmnopqrstuvwxyz0123456789+/".toList

/-- Base64 digit for a 6-bit value. -/
def base64Char (n : Nat) : Char := (base64Alphabet.get? n).getD 'A'

/-- UTF-8 bytes of a string. -/
def stringUtf8Bytes (s : String) : List Nat :=
  (s.toList.map (fun c => utf8Bytes c.toNat)).flatten

/-- Base64 encoding of a byte list, with `=` padding. -/
def base64Chunks : List Nat → List Char
  | [] => []
  | [a] => [base64Char (a / 4), base64Char ((a % 4) * 16), '=', '=']
  | [a, b] => [base64Char (a / 4), base64Char ((a % 4) * 16 + b / 16),
               base64Char ((b % 16) * 4), '=']
  | a :: b :: c :: rest =>
    base64Char (a / 4) :: base64Char ((a % 4) * 16 + b / 16) ::
    base64Char ((b % 16) * 4 + c / 64) :: base64Char (c % 64) :: base64Chunks rest

/-- `Buffer.from(s).toString("base64")` (source lines 70-72). -/
def base64Encode (s : String) : String := (base64Chunks (stringUtf8Bytes s)).asString

/-- JavaScript `String.prototype.split` with the one-character separator
`"|"` (source line 158: `ret.split("|")`).  Splitting the empty string
yields `[""]`, matching JavaScript. -/
def splitOnChar (sep : Char) : List Char → List (List Char)
  | [] => [[]]
  | c :: rest =>
    let r := splitOnChar sep rest
    if c = sep then [] :: r
    else
      match r with
      | h :: t => (c :: h) :: t
      | [] => [[c]]

/-! ## The XML regex scanners

The source extracts ticket attributes with two regexes:

* `/<ticket\s([^>]+)\/>/` (single match, `getTicketDetails` line 269) and
  `/<ticket\s([^>]+?)\/>/g` (global, `searchTicketsByCreator` line 320);
* `/(\w+)="([^"]*)"/g` over the captured group (lines 276 and 325).

For the first pattern, a match at a given start position is fully
determined: the pattern is the literal `<ticket`, one `\s` character, a
nonempty run of non-`>` characters, then `/>`.  Since the captured group
cannot contain `>`, the `>` ending the match must be the first `>` after
the group's start, and the character before it must be `/`.  Hence the
greedy `[^>]+` and lazy `[^>]+?` variants used in the source have
identical matches, and both are embedded by the same deterministic
scanner below (`matchTicketAt`).  A global `exec` loop resumes searching
at the end of the previous match; a failed start position advances by one
character.  Both behaviours are mirrored by `scanTicketsF`.
-/

/-- Split a character list at the first occurrence of `sep`:
`some (pre, after)` with `l = pre ++ sep :: after` and `sep ∉ pre`, or
`none` when `sep` does not occur. -/
def splitAtChar (sep : Char) (l : List Char) : Option (List Char × List Char) :=
  match l.dropWhile (fun c => c != sep) with
  | _ :: after => some (l.takeWhile (fun c => c != sep), after)
  | [] => none

/-- Attempt to match `/<ticket\s([^>]+)\/>/` at the start of `l`.
On success returns the captured group and the remainder of the input
after the match (the regex `lastIndex` position of a global search). -/
def matchTicketAt : List Char → Option (List Char × List Char)
  | '<' :: 't' :: 'i' :: 'c' :: 'k' :: 'e' :: 't' :: c :: rest =>
    if isJsSpace c then
      match splitAtChar '>' rest with
      | some (pre, after) =>
        if 2 ≤ pre.length ∧ pre.getLast? = some '/' then
          some (pre.dropLast, after)
        else none
      | none => none
    else none
  | _ => none

/-- All matches of the global search `/<ticket\s([^>]+?)\/>/g`, as the list
of captured groups in document order.  Fuel-based recursion (the fuel is
the input length, which suffices: every step consumes at least one
character); this keeps the definition structurally recursive so that the
kernel can evaluate it on concrete inputs. -/
def scanTicketsF : Nat → List Char → List (List Char)
  | 0, _ => []
  | _ + 1, [] => []
  | n + 1, c :: rest =>
    match matchTicketAt (c :: rest) with
    | some (g, after) => g :: scanTicketsF n after
    | none => scanTicketsF n rest

/-- All captured groups of `/<ticket\s([^>]+?)\/>/g` over `l`, in order. -/
def scanTickets (l : List Char) : List (List Char) := scanTicketsF l.length l

/-- The single (leftmost) match of `xml.match(/<ticket\s([^>]+)\/>/)`:
the captured attribute string of the first ticket element, if any. -/
def matchFirstTicketF : Nat → List Char → Option (List Char)
  | 0, _ => none
  | _ + 1, [] => none
  | n + 1, c :: rest =>
    match matchTicketAt (c :: rest) with
    | some (g, _) => some g
    | none => matchFirstTicketF n rest

/-- Leftmost captured group of `/<ticket\s([^>]+)\/>/`, if any. -/
def matchFirstTicket (l : List Char) : Option (List Char) :=
  matchFirstTicketF l.length l

/-- The `exec` loop of `/(\w+)="([^"]*)"/g` over an attribute string
(source lines 276-280 and 325-329), returning the captured
(name, value) pairs in match order.

A match of this pattern starts at a maximal run of word characters that is
immediately followed by `="`; the value is everything up to the next `"`.
Start positions inside such a run all fail (they would be followed by a
word character, not `=`), so after a failed run the scan resumes after the
run, and after a successful match it resumes after the closing quote,
exactly as the JavaScript `lastIndex` does.  `execAttrStep` attempts one
match at a start position already known to hold a word character: the
maximal word run must be followed by `="`, and the value extends to the
next `"`; with no closing quote (or no `="`) there is no match starting
anywhere in the run, and the scan resumes after the run (both failure
paths continue from `dropWhile isWordChar`, which is where the run ends).
`execAttrsF` is fuel-based for the same reason as `scanTicketsF`. -/
def execAttrStep (l : List Char) : Option (List Char × List Char × List Char) :=
  match List.dropWhile isWordChar l with
  | '=' :: '"' :: rest2 =>
    match splitAtChar '"' rest2 with
    | some (v, rest3) => some (List.takeWhile isWordChar l, v, rest3)
    | none => none
  | _ => none

def execAttrsF : Nat → List Char → List (List Char × List Char)
  | 0, _ => []
  | _ + 1, [] => []
  | n + 1, c :: rest =>
    if isWordChar c then
      match execAttrStep (c :: rest) with
      | some (name, v, rest3) => (name, v) :: execAttrsF n rest3
      | none => execAttrsF n (List.dropWhile isWordChar (c :: rest))
    else execAttrsF n rest

/-- All (name, value) captures of `/(\w+)="([^"]*)"/g` over `l`. -/
def execAttrs (l : List Char) : List (List Char × List Char) :=
  execAttrsF l.length l

/-- Attribute pairs of one captured group, as strings.  The JavaScript
source stores them into a fresh object `attrs[m[1]] = m[2]`; the object's
insertion order and contents coincide with this list (with a later
duplicate name overwriting an earlier one; duplicates do not arise for
the XML shapes considered here). -/
def extractAttrs (group : List Char) : List (String × String) :=
  (execAttrs group).map (fun p => (p.1.asString, p.2.asString))

/-- The multi-element extractor of `searchTicketsByCreator`: one attribute
mapping per matched ticket element, in document order. -/
def extractTicketMaps (xml : String) : List (List (String × String)) :=
  (scanTickets xml.toList).map extractAttrs

/-! ## A JSON value model for `getKeywords`

`getKeywords` feeds the SOAP return string to `JSON.parse` and branches on
the parsed value (source lines 234-238).  `JSON.parse` is a host-library
function, not repository code, so the operation below is parameterised by
its outcome: either a parsed `Json` value or the thrown `SyntaxError`
message. -/

/-- JSON values as produced by `JSON.parse` (numbers restricted to the
integers, which is all the remote envelope uses). -/
inductive Json where
  | null
  | bool (b : Bool)
  | num (n : Int)
  | str (s : String)
  | arr (xs : List Json)
  | obj (fields : List (String × Json))

/-- Field lookup in a parsed JSON object.  `JSON.parse` deduplicates
repeated keys (last occurrence wins), so the field lists reaching this
function have distinct keys and first-match lookup is accurate. -/
def lookupField : List (String × Json) → String → Option Json
  | [], _ => none
  | (k, v) :: rest, key => if k = key then some v else lookupField rest key

/-- JavaScript property access `j.key` on a parsed JSON value:
`none` models `undefined`; property access on `null` throws a
`TypeError` (its message is abbreviated here; no claim depends on its
exact text). -/
def jsGetField : Json → String → Except String (Option Json)
  | .null, key => .error ("Cannot read properties of null (reading " ++ key ++ ")")
  | .obj fields, key => .ok (lookupField fields key)
  | _, _ => .ok none

/-- JavaScript truthiness of a possibly-`undefined` JSON value, as tested
by `if (!parsed.SUCCESS)` on source line 235. -/
def jsTruthy : Option Json → Bool
  | none => false
  | some .null => false
  | some (.bool b) => b
  | some (.num n) => n ≠ 0
  | some (.str s) => s ≠ ""
  | some (.arr _) => true
  | some (.obj _) => true

mutual

/-- JavaScript `String(v)` of a JSON value, as used by template
interpolation (`${parsed.ERRORTEXT}` on source line 236). -/
def jsDisplay : Json → String
  | .null => "null"
  | .bool b => if b then "true" else "false"
  | .num n => toString n
  | .str s => s
  | .obj _ => "[object Object]"
  | .arr xs => jsDisplayList xs

/-- `Array.prototype.toString`: elements joined with commas. -/
def jsDisplayList : List Json → String
  | [] => ""
  | [j] => jsDisplayItem j
  | j :: rest => jsDisplayItem j ++ "," ++ jsDisplayList rest

/-- An element inside an array join: `null` renders as the empty string. -/
def jsDisplayItem : Json → String
  | .null => ""
  | j => jsDisplay j

end

/-- Template interpolation of a possibly-`undefined` JSON value. -/
def optJsonDisplay : Option Json → String
  | none => "undefined"
  | some j => jsDisplay j

/-! ## The client data model and operations -/

/-- The `DokuwebTicketClient` instance state: the four immutable
configuration fields set by the constructor (lines 48-55) plus the two
mutable session fields.  `authToken = none` models `null`; `soapClient`
records whether the lazily-created SOAP handle exists (the handle itself
is opaque to every claim). -/
structure Client where
  baseUrl : String
  soapWsdl : String
  username : String
  password : String
  authToken : Option String
  soapClient : Bool
deriving DecidableEq

/-- The constructor (source lines 48-56): trims one trailing slash from
`baseUrl`, and starts with no auth token and no SOAP client. -/
def mkClient (baseUrl soapWsdl username password : String) : Client :=
  { baseUrl := stripTrailingSlash baseUrl
    soapWsdl := soapWsdl
    username := username
    password := password
    authToken := none
    soapClient := false }

/-- The SOAP `createTicket` argument object (source lines 137-151). -/
structure CreateTicketArgs where
  authToken : Option String
  sSubject : String
  sPartner : String
  sKeyword : String
  sCategory : String
  sChannel : String
  sDescription : String
  sType : String
  sPLZ : String
  sTicketgroup : String
  sFieldvalues : String
  sPriority : String
  sTicketsystem : String
deriving DecidableEq

/-- The SOAP `getKeywords` argument object (source lines 225-229). -/
structure KeywordsArgs where
  authToken : Option String
  sChannel : String
  sTicketsystem : String
deriving DecidableEq

/-- The query parameters of the `searchTicketsByCreator` request
(source lines 304-312). -/
structure SearchParams where
  authtoken : Option String
  start : Nat
  max : Nat
  field_count : Nat
  f1 : String
  f1_op : String
  f1_val : String
deriving DecidableEq

/-- An outgoing transport request, as observable at the transport
boundary.  The `authGet` header value is `Basic` followed by the base64
credentials, as built on source lines 70-77. -/
inductive Request where
  | authGet (url : String) (authHeader : String)
  | soapCreateTicket (args : CreateTicketArgs)
  | soapGetKeywords (args : KeywordsArgs)
  | restGetTicket (url : String) (authtoken : Option String)
  | restSearch (url : String) (ps : SearchParams)
deriving DecidableEq

/-- Outcome of one `axios.get` call: a 2xx response with its body, or a
failure carrying `err.response?.status` and `err.response?.statusText`
(both absent for a network-level failure with no response). -/
inductive HttpOutcome where
  | success (body : String)
  | failure (status : Option Nat) (statusText : Option String)

/-- Outcome of one awaited SOAP call: the operation's string return field,
or a rejection with `err.message`. -/
inductive SoapOutcome where
  | resolved (ret : String)
  | rejected (message : String)

/-- Outcome of the `getKeywords` SOAP call combined with the `JSON.parse`
of its return string: `resolved (.ok j)` is a parsed value, `resolved
(.error m)` a `SyntaxError` thrown by `JSON.parse` (malformed JSON), and
`rejected m` a SOAP transport rejection. -/
inductive KwOutcome where
  | resolved (parseResult : Except String Json)
  | rejected (message : String)

/-- Result of one client operation: the returned value or thrown error
message, the client state afterwards, and the transport requests
performed (in order). -/
structure OpOut (α : Type) where
  res : Except String α
  client : Client
  calls : List Request

/-- `authenticate()` (source lines 68-89): one GET to the token endpoint
with Basic credentials; on success stores and returns the trimmed body;
on failure throws `Authentication failed: <status> <statusText>` and
leaves the state untouched. -/
def authenticate (c : Client) (outcome : HttpOutcome) : OpOut String :=
  let authUrl := c.baseUrl ++ "/dokuweb/auth/token"
  let call := Request.authGet authUrl
    ("Basic " ++ base64Encode (c.username ++ ":" ++ c.password))
  match outcome with
  | .success body =>
    let tok := jsTrim body
    { res := .ok tok, client := { c with authToken := some tok }, calls := [call] }
  | .failure st stx =>
    { res := .error ("Authentication failed: " ++ optDisplay (st.map toString)
        ++ " " ++ optDisplay stx)
      client := c
      calls := [call] }

/-- `_getSoapClient()` (source lines 95-107): returns the cached SOAP
handle, or throws a precondition error when no auth token is held, or
creates the handle.  (WSDL fetching is assumed to succeed; no claim
concerns its failure.) -/
def _getSoapClient (c : Client) : Except String Client :=
  if c.soapClient then .ok c
  else if tokenTruthy c.authToken then .ok { c with soapClient := true }
  else .error "authToken is missing. Call authenticate() first."

/-- The optional-parameter object of `createTicket` (source lines 123-131). -/
structure CreateTicketOptions where
  category : Option String := none
  channel : Option String := none
  description : Option String := none
  type : Option String := none
  ticketGroup : Option String := none
  fieldValues : Option String := none
  priority : Option String := none
  ticketSystem : Option String := none

/-- The value returned by a successful `createTicket` (source line 164).
`Option` models fields that are `undefined` when the pipe-delimited
return has fewer than three parts. -/
structure CreatedTicket where
  ticketid : Option String
  ticketnr : Option String
deriving DecidableEq

/-- `createTicket` (source lines 135-169).  `_getSoapClient` runs outside
the `try`, so its precondition error propagates unwrapped and no SOAP
call happens.  The resolved return string is split on `|`; a first part
other than `"true"` raises `Ticket creation failed: <ret>`, which the
`catch` rewraps as `createTicket SOAP error: <message>`. -/
def createTicket (c : Client) (subject partnerId keyword : String)
    (options : CreateTicketOptions) (outcome : SoapOutcome) : OpOut CreatedTicket :=
  match _getSoapClient c with
  | .error m => { res := .error m, client := c, calls := [] }
  | .ok c1 =>
    let args : CreateTicketArgs :=
      { authToken := c1.authToken
        sSubject := subject
        sPartner := partnerId
        sKeyword := keyword
        sCategory := jsOr options.category ""
        sChannel := jsOr options.channel "POST"
        sDescription := jsOr options.description ""
        sType := jsOr options.type "1"
        sPLZ := ""
        sTicketgroup := jsOr options.ticketGroup ""
        sFieldvalues := jsOr options.fieldValues ""
        sPriority := jsOr options.priority ""
        sTicketsystem := jsOr options.ticketSystem "" }
    let call := Request.soapCreateTicket args
    match outcome with
    | .rejected m =>
      { res := .error ("createTicket SOAP error: " ++ m), client := c1, calls := [call] }
    | .resolved ret =>
      let parts := (splitOnChar '|' ret.toList).map List.asString
      if parts.head? = some "true" then
        { res := .ok { ticketid := parts.get? 1, ticketnr := parts.get? 2 }
          client := c1
          calls := [call] }
      else
        { res := .error ("createTicket SOAP error: " ++ ("Ticket creation failed: " ++ ret))
          client := c1
          calls := [call] }

/-- `getKeywords` (source lines 223-243).  As with `createTicket`, the
`_getSoapClient` precondition error propagates unwrapped with no call
made.  A parse error, a thrown `TypeError`, and a falsy `SUCCESS` all
surface through the `catch` as `getKeywords SOAP error: <message>`; a
truthy `SUCCESS` returns the `DATA` field unchanged. -/
def getKeywords (c : Client) (channel ticketSystem : Option String)
    (outcome : KwOutcome) : OpOut (Option Json) :=
  match _getSoapClient c with
  | .error m => { res := .error m, client := c, calls := [] }
  | .ok c1 =>
    let args : KeywordsArgs :=
      { authToken := c1.authToken
        sChannel := channel.getD ""
        sTicketsystem := ticketSystem.getD "" }
    let call := Request.soapGetKeywords args
    match outcome with
    | .rejected m =>
      { res := .error ("getKeywords SOAP error: " ++ m), client := c1, calls := [call] }
    | .resolved (.error m) =>
      { res := .error ("getKeywords SOAP error: " ++ m), client := c1, calls := [call] }
    | .resolved (.ok j) =>
      match jsGetField j "SUCCESS" with
      | .error m =>
        { res := .error ("getKeywords SOAP error: " ++ m), client := c1, calls := [call] }
      | .ok s =>
        if jsTruthy s then
          match jsGetField j "DATA" with
          | .ok d => { res := .ok d, client := c1, calls := [call] }
          | .error m =>
            { res := .error ("getKeywords SOAP error: " ++ m), client := c1, calls := [call] }
        else
          match jsGetField j "ERRORTEXT" with
          | .ok e =>
            { res := .error ("getKeywords SOAP error: "
                ++ ("getKeywords failed: " ++ optJsonDisplay e))
              client := c1
              calls := [call] }
          | .error m =>
            { res := .error ("getKeywords SOAP error: " ++ m), client := c1, calls := [call] }

/-- `getTicketDetails` (source lines 258-287).  No auth-token precondition
check: the GET happens regardless, with the (possibly `null`) token as a
query parameter.  On a 2xx body, the first `/<ticket\s([^>]+)\/>/` match
is reduced to its attribute pairs; with no match, the inner
`No <ticket> element found in response.` error is thrown, which the
`catch` replaces by `getTicketDetails REST error: undefined undefined`
(the thrown `Error` has no `response` property).  A transport failure
surfaces its status and statusText in that template. -/
def getTicketDetails (c : Client) (ticketId : String)
    (outcome : HttpOutcome) : OpOut (List (String × String)) :=
  let url := c.baseUrl ++ "/dokuweb/ticket/" ++ encodeURIComponent ticketId
  let call := Request.restGetTicket url c.authToken
  match outcome with
  | .failure st stx =>
    { res := .error ("getTicketDetails REST error: " ++ optDisplay (st.map toString)
        ++ " " ++ optDisplay stx)
      client := c
      calls := [call] }
  | .success body =>
    match matchFirstTicket body.toList with
    | none =>
      { res := .error ("getTicketDetails REST error: " ++ "undefined" ++ " " ++ "undefined")
        client := c
        calls := [call] }
    | some group =>
      { res := .ok (extractAttrs group), client := c, calls := [call] }

/-- `searchTicketsByCreator` (source lines 303-338).  No auth-token
precondition check.  The request carries the pagination values (defaults
`start = 1`, `max = 10`) and the single filter triple
`f1 = CREATE_BY`, `f1_op = =`, `f1_val = <creatorLogin>`.  Every
`/<ticket\s([^>]+?)\/>/g` match of a 2xx body is reduced to its attribute
pairs (an empty list when there is no match); a transport failure
surfaces as `searchTicketsByCreator REST error: <status> <statusText>`. -/
def searchTicketsByCreator (c : Client) (creatorLogin : String)
    (start? max? : Option Nat) (outcome : HttpOutcome) :
    OpOut (List (List (String × String))) :=
  let ps : SearchParams :=
    { authtoken := c.authToken
      start := start?.getD 1
      max := max?.getD 10
      field_count := 1
      f1 := "CREATE_BY"
      f1_op := "="
      f1_val := creatorLogin }
  let url := c.baseUrl ++ "/dokuweb/tickets/"
  let call := Request.restSearch url ps
  match outcome with
  | .failure st stx =>
    { res := .error ("searchTicketsByCreator REST error: " ++ optDisplay (st.map toString)
        ++ " " ++ optDisplay stx)
      client := c
      calls := [call] }
  | .success body =>
    { res := .ok ((scanTickets body.toList).map extractAttrs)
      client := c
      calls := [call] }

/-! ## Substring containment

Used to state that error messages carry operation names, causes and raw
return strings. -/

/-- Boolean list-prefix test. -/
def prefB : List Char → List Char → Bool
  | [], _ => true
  | _ :: _, [] => false
  | a :: xs, b :: ys => a = b && prefB xs ys

/-- Boolean contiguous-sublist test. -/
def containsSub (l sub : List Char) : Bool :=
  match l with
  | [] => sub.isEmpty
  | _ :: t => prefB sub l || containsSub t sub

/-- `strContainsB s sub` holds when `sub` occurs contiguously in `s`. -/
def strContainsB (s sub : String) : Bool := containsSub s.toList sub.toList

/-! ## Renderers for XML fragments

To quantify over "XML fragments containing N self-closing ticket
elements", the theorems below build such fragments from attribute lists
and filler text.  `goodName` and `goodValue` delimit the inputs the
source's regexes are able to represent at all: names are nonempty `\w+`
runs, values may contain anything except a double quote (which would
close the attribute) and except `>` (see the corrected claims C2 and C5). -/

/-- A legal attribute name for the `/(\w+)="([^"]*)"/g` regex:
nonempty, all word characters. -/
abbrev goodName (n : String) : Prop :=
  n.toList ≠ [] ∧ ∀ c ∈ n.toList, isWordChar c = true

/-- An attribute value the extractor decodes intact: no double quote and
no `>`. -/
abbrev goodValue (v : String) : Prop :=
  ∀ c ∈ v.toList, c ≠ '"' ∧ c ≠ '>'

/-- Render an attribute list as the inline text
`name1="v1" name2="v2" ` (one trailing space per attribute). -/
def renderAttrsL : List (String × String) → List Char
  | [] => []
  | (n, v) :: rest =>
    n.toList ++ '=' :: '"' :: (v.toList ++ '"' :: ' ' :: renderAttrsL rest)

/-- Render one self-closing ticket element `<ticket n1="v1" ... />`. -/
def renderElemL (attrs : List (String × String)) : List Char :=
  '<' :: 't' :: 'i' :: 'c' :: 'k' :: 'e' :: 't' :: ' ' ::
    (renderAttrsL attrs ++ '/' :: '>' :: [])

/-- Render an alternating sequence of ticket elements and filler text. -/
def renderSegsL : List (List (String × String) × String) → List Char
  | [] => []
  | (e, f) :: rest => renderElemL e ++ (f.toList ++ renderSegsL rest)

/-! ## Concrete clients used by witnesses and counterexamples -/

/-- A freshly constructed client: `authenticate()` has not run, so
`authToken` is `null` and no SOAP client exists. -/
def freshC : Client := mkClient "https://h/api" "https://h/api/ws?wsdl" "u" "p"

/-- A client after a successful `authenticate()` returned token `TOK`. -/
def authedC : Client :=
  { baseUrl := "https://h/api"
    soapWsdl := "https://h/api/ws?wsdl"
    username := "u"
    password := "p"
    authToken := some "TOK"
    soapClient := false }

theorem prefB_append_self (s t : List Char) : prefB s (s ++ t) = true := by
  induction s with
  | nil => rfl
  | cons a xs ih => simp [prefB, ih]

theorem containsSub_of_prefB {l sub : List Char} (h : prefB sub l = true) :
    containsSub l sub = true := by
  cases l with
  | nil =>
    cases sub with
    | nil => rfl
    | cons b ys => simp [prefB] at h
  | cons a t => simp [containsSub, h]

theorem containsSub_append_right {r sub : List Char} (p : List Char)
    (h : containsSub r sub = true) : containsSub (p ++ r) sub = true := by
  induction p with
  | nil => simpa using h
  | cons a t ih => simp [containsSub, ih]

theorem strContainsB_append_end (p s : String) : strContainsB (p ++ s) s = true := by
  show containsSub (p ++ s).toList s.toList = true
  have hd : (p ++ s).toList = p.toList ++ s.toList := by
    simp [String.toList]
  rw [hd]
  exact containsSub_append_right p.toList
    (containsSub_of_prefB (by simpa using prefB_append_self s.toList []))

theorem strContainsB_append_mid (p s q : String) : strContainsB (p ++ s ++ q) s = true := by
  show containsSub (p ++ s ++ q).toList s.toList = true
  have hd : (p ++ s ++ q).toList = p.toList ++ (s.toList ++ q.toList) := by
    simp [String.toList]
  rw [hd]
  exact containsSub_append_right p.toList
    (containsSub_of_prefB (prefB_append_self s.toList q.toList))

/-! ## takeWhile / dropWhile helpers -/

theorem takeWhile_all_append (p : Char → Bool) :
    ∀ l1 l2 : List Char, (∀ c ∈ l1, p c = true) →
      (∀ h, l2.head? = some h → p h = false) →
      (l1 ++ l2).takeWhile p = l1 := by
  intro l1
  induction l1 with
  | nil =>
    intro l2 _ h2
    cases l2 with
    | nil => rfl
    | cons b t =>
      simp only [List.nil_append, List.takeWhile]
      rw [h2 b rfl]
  | cons a xs ih =>
    intro l2 h1 h2
    have ha : p a = true := h1 a (by simp)
    simp only [List.cons_append, List.takeWhile]
    rw [ha]
    simp only [List.cons.injEq, true_and]
    exact ih l2 (fun c hc => h1 c (by simp [hc])) h2

theorem dropWhile_all_append (p : Char → Bool) :
    ∀ l1 l2 : List Char, (∀ c ∈ l1, p c = true) →
      (∀ h, l2.head? = some h → p h = false) →
      (l1 ++ l2).dropWhile p = l2 := by
  intro l1
  induction l1 with
  | nil =>
    intro l2 _ h2
    cases l2 with
    | nil => rfl
    | cons b t =>
      simp only [List.nil_append, List.dropWhile]
      rw [h2 b rfl]
  | cons a xs ih =>
    intro l2 h1 h2
    have ha : p a = true := h1 a (by simp)
    simp only [List.cons_append, List.dropWhile]
    rw [ha]
    exact ih l2 (fun c hc => h1 c (by simp [hc])) h2

theorem length_dropWhile_le (p : Char → Bool) (l : List Char) :
    (l.dropWhile p).length ≤ l.length := by
  induction l with
  | nil => simp [List.dropWhile]
  | cons a t ih =>
    simp only [List.dropWhile]
    cases p a with
    | true => exact Nat.le_trans ih (Nat.le_succ _)
    | false => simp

/-! ## splitAtChar lemmas -/

theorem splitAtChar_some (sep : Char) :
    ∀ pre after : List Char, (∀ c ∈ pre, c ≠ sep) →
      splitAtChar sep (pre ++ sep :: after) = some (pre, after) := by
  intro pre after h
  unfold splitAtChar
  have hp : ∀ c ∈ pre, (c != sep) = true := by
    intro c hc
    simpa using h c hc
  have hhead : ∀ h2, (sep :: after).head? = some h2 → (h2 != sep) = false := by
    intro h2 hh
    simp at hh
    simp [hh]
  rw [dropWhile_all_append _ pre (sep :: after) hp hhead,
      takeWhile_all_append _ pre (sep :: after) hp hhead]

theorem splitAtChar_none (sep : Char) (l : List Char) (h : ∀ c ∈ l, c ≠ sep) :
    splitAtChar sep l = none := by
  unfold splitAtChar
  have : l.dropWhile (fun c => c != sep) = [] := by
    have := dropWhile_all_append (fun c => c != sep) l []
      (fun c hc => by simpa using h c hc) (by intro h2 hh; simp at hh)
    simpa using this
  rw [this]

theorem splitAtChar_length {sep : Char} {l pre after : List Char}
    (h : splitAtChar sep l = some (pre, after)) : after.length < l.length := by
  unfold splitAtChar at h
  rcases hd : l.dropWhile (fun c => c != sep) with _ | ⟨x, t⟩
  · rw [hd] at h; exact absurd h (by simp)
  · rw [hd] at h
    have h2 : t = after := by
      have := congrArg (fun o => Option.map Prod.snd o) h
      simpa using this
    have hle : (x :: t).length ≤ l.length := by
      rw [← hd]; exact length_dropWhile_le _ l
    simp only [List.length_cons] at hle
    rw [← h2]
    omega

/-! ## matchTicketAt lemmas -/

theorem matchTicketAt_cons_ne {c : Char} (h : c ≠ '<') (t : List Char) :
    matchTicketAt (c :: t) = none := by
  unfold matchTicketAt
  split
  · rename_i heq
    injection heq with h1 _
    exact absurd h1 h
  · rfl

theorem matchTicketAt_length {l g after : List Char}
    (h : matchTicketAt l = some (g, after)) : after.length < l.length := by
  unfold matchTicketAt at h
  split at h
  · rename_i c rest
    by_cases hsp : isJsSpace c = true
    · rw [if_pos hsp] at h
      rcases hs : splitAtChar '>' rest with _ | ⟨pre, after2⟩
      · rw [hs] at h; simp at h
      · rw [hs] at h
        dsimp only at h
        by_cases hcond : 2 ≤ pre.length ∧ pre.getLast? = some '/'
        · rw [if_pos hcond] at h
          have h2 : after2 = after := by
            have := congrArg (fun o => Option.map Prod.snd o) h
            simpa using this
          have hlt := splitAtChar_length hs
          have hlen2 : after2.length = after.length := by rw [h2]
          simp only [List.length_cons]
          omega
        · rw [if_neg hcond] at h; simp at h
    · rw [if_neg hsp] at h; simp at h
  · simp at h

/-- The pattern matches a rendered element: literal `<ticket`, a space, a
nonempty `>`-free attribute text, then `/>`; the group is the attribute
text and scanning resumes right after the `>`, whatever follows. -/
theorem matchTicketAt_elem (attrsText suf : List Char) (hne : attrsText ≠ [])
    (hgt : ∀ ch ∈ attrsText, ch ≠ '>') :
    matchTicketAt ('<' :: 't' :: 'i' :: 'c' :: 'k' :: 'e' :: 't' :: ' ' ::
        (attrsText ++ '/' :: '>' :: suf)) = some (attrsText, suf) := by
  have hshape : attrsText ++ '/' :: '>' :: suf = (attrsText ++ ['/']) ++ '>' :: suf := by
    simp
  have hpre : ∀ c ∈ attrsText ++ ['/'], c ≠ '>' := by
    intro c hc
    rcases List.mem_append.mp hc with h1 | h2
    · exact hgt c h1
    · simp at h2; subst h2; decide
  simp only [matchTicketAt, hshape, splitAtChar_some '>' (attrsText ++ ['/']) suf hpre]
  rw [if_pos (by decide)]
  simp [List.getLast?_concat, List.dropLast_concat, hne]

/-! ## scanTickets and matchFirstTicket lemmas -/

theorem scanTicketsF_nil (n : Nat) : scanTicketsF n [] = [] := by
  cases n <;> rfl

theorem scanTicketsF_fuel : ∀ n m l, l.length ≤ n → l.length ≤ m →
    scanTicketsF n l = scanTicketsF m l := by
  intro n
  induction n with
  | zero =>
    intro m l hn _
    have hl : l = [] := by
      cases l with
      | nil => rfl
      | cons a t => simp at hn
    subst hl
    rw [scanTicketsF_nil, scanTicketsF_nil]
  | succ n ih =>
    intro m l hn hm
    cases l with
    | nil => rw [scanTicketsF_nil, scanTicketsF_nil]
    | cons c rest =>
      cases m with
      | zero => simp at hm
      | succ m2 =>
        simp only [List.length_cons] at hn hm
        simp only [scanTicketsF]
        rcases hmt : matchTicketAt (c :: rest) with _ | ⟨g, after⟩ <;> dsimp only
        · exact ih m2 rest (by omega) (by omega)
        · have hlt := matchTicketAt_length hmt
          simp only [List.length_cons] at hlt
          rw [ih m2 after (by omega) (by omega)]

theorem scanTickets_cons_none {c : Char} {rest : List Char}
    (h : matchTicketAt (c :: rest) = none) :
    scanTickets (c :: rest) = scanTickets rest := by
  unfold scanTickets
  simp only [List.length_cons, scanTicketsF, h]

theorem scanTickets_cons_some {c : Char} {rest g after : List Char}
    (h : matchTicketAt (c :: rest) = some (g, after)) :
    scanTickets (c :: rest) = g :: scanTickets after := by
  have hlt := matchTicketAt_length h
  simp only [List.length_cons] at hlt
  unfold scanTickets
  simp only [List.length_cons, scanTicketsF, h]
  rw [scanTicketsF_fuel rest.length after.length after (by omega) (by omega)]

theorem scanTickets_filler : ∀ f rest : List Char, (∀ c ∈ f, c ≠ '<') →
    scanTickets (f ++ rest) = scanTickets rest := by
  intro f
  induction f with
  | nil => intro rest _; rfl
  | cons c t ih =>
    intro rest h
    rw [List.cons_append,
        scanTickets_cons_none (matchTicketAt_cons_ne (h c (by simp)) _)]
    exact ih rest (fun x hx => h x (by simp [hx]))

theorem matchFirstTicketF_nil (n : Nat) : matchFirstTicketF n [] = none := by
  cases n <;> rfl

theorem matchFirstTicket_cons_none {c : Char} {rest : List Char}
    (h : matchTicketAt (c :: rest) = none) :
    matchFirstTicket (c :: rest) = matchFirstTicket rest := by
  unfold matchFirstTicket
  simp only [List.length_cons, matchFirstTicketF, h]

theorem matchFirstTicket_cons_some {c : Char} {rest g after : List Char}
    (h : matchTicketAt (c :: rest) = some (g, after)) :
    matchFirstTicket (c :: rest) = some g := by
  unfold matchFirstTicket
  simp only [List.length_cons, matchFirstTicketF, h]

theorem matchFirstTicket_filler : ∀ f rest : List Char, (∀ c ∈ f, c ≠ '<') →
    matchFirstTicket (f ++ rest) = matchFirstTicket rest := by
  intro f
  induction f with
  | nil => intro rest _; rfl
  | cons c t ih =>
    intro rest h
    rw [List.cons_append,
        matchFirstTicket_cons_none (matchTicketAt_cons_ne (h c (by simp)) _)]
    exact ih rest (fun x hx => h x (by simp [hx]))


/-! ## execAttrs lemmas -/

theorem dropWhile_cons_pos {p : Char → Bool} {c : Char} {l : List Char} (h : p c = true) :
    List.dropWhile p (c :: l) = List.dropWhile p l := by
  simp [List.dropWhile, h]

theorem execAttrStep_length {l name v rest3 : List Char}
    (h : execAttrStep l = some (name, v, rest3)) : rest3.length < l.length := by
  unfold execAttrStep at h
  split at h
  · rename_i rest2 heq
    rcases hs : splitAtChar '"' rest2 with _ | ⟨v2, r3⟩ <;> rw [hs] at h
    · simp at h
    · dsimp only at h
      have hr : r3 = rest3 := by
        have := congrArg (fun o => Option.map (fun q => q.2.2) o) h
        simpa using this
      have h1 := splitAtChar_length hs
      have h2 : ('=' :: '"' :: rest2).length ≤ l.length := by
        rw [← heq]; exact length_dropWhile_le _ l
      simp only [List.length_cons] at h2
      have hr2 : r3.length = rest3.length := by rw [hr]
      omega
  · simp at h

theorem execAttrsF_nil (n : Nat) : execAttrsF n [] = [] := by
  cases n <;> rfl

theorem execAttrsF_fuel : ∀ n m l, l.length ≤ n → l.length ≤ m →
    execAttrsF n l = execAttrsF m l := by
  intro n
  induction n with
  | zero =>
    intro m l hn _
    have hl : l = [] := by
      cases l with
      | nil => rfl
      | cons a t => simp at hn
    subst hl
    rw [execAttrsF_nil, execAttrsF_nil]
  | succ n ih =>
    intro m l hn hm
    cases l with
    | nil => rw [execAttrsF_nil, execAttrsF_nil]
    | cons c rest =>
      cases m with
      | zero => simp at hm
      | succ m2 =>
        simp only [List.length_cons] at hn hm
        simp only [execAttrsF]
        by_cases hw : isWordChar c = true
        · simp only [hw, if_true]
          rcases hs : execAttrStep (c :: rest) with _ | ⟨name, v, rest3⟩ <;> dsimp only
          · have hlen : (List.dropWhile isWordChar (c :: rest)).length ≤ rest.length := by
              rw [dropWhile_cons_pos hw]
              exact length_dropWhile_le _ rest
            exact ih m2 _ (by omega) (by omega)
          · have hlt := execAttrStep_length hs
            simp only [List.length_cons] at hlt
            rw [ih m2 rest3 (by omega) (by omega)]
        · simp only [Bool.not_eq_true] at hw
          simp only [hw, Bool.false_eq_true, if_false]
          exact ih m2 rest (by omega) (by omega)

theorem execAttrs_cons_notWord {c : Char} {rest : List Char}
    (h : isWordChar c = false) : execAttrs (c :: rest) = execAttrs rest := by
  unfold execAttrs
  simp only [List.length_cons, execAttrsF, h, Bool.false_eq_true, if_false]

theorem execAttrs_cons_step {c : Char} {rest name v rest3 : List Char}
    (hw : isWordChar c = true) (h : execAttrStep (c :: rest) = some (name, v, rest3)) :
    execAttrs (c :: rest) = (name, v) :: execAttrs rest3 := by
  have hlt := execAttrStep_length h
  simp only [List.length_cons] at hlt
  unfold execAttrs
  simp only [List.length_cons, execAttrsF, hw, if_true, h]
  rw [execAttrsF_fuel rest.length rest3.length rest3 (by omega) (by omega)]

/-! ## Extraction of rendered fragments -/

theorem isWordChar_ne_gt {c : Char} (h : isWordChar c = true) : c ≠ '>' := by
  intro hc
  subst hc
  exact absurd h (by decide)

theorem execAttrStep_render (n v : String) (tail : List Char)
    (hn : goodName n) (hv : goodValue v) :
    execAttrStep (n.toList ++ '=' :: '"' :: (v.toList ++ '"' :: tail))
      = some (n.toList, v.toList, tail) := by
  have hhead : ∀ h2, ('=' :: '"' :: (v.toList ++ '"' :: tail)).head? = some h2 →
      isWordChar h2 = false := by
    intro h2 hh
    simp at hh
    subst hh
    decide
  have hd := dropWhile_all_append isWordChar n.toList
    ('=' :: '"' :: (v.toList ++ '"' :: tail)) hn.2 hhead
  have ht := takeWhile_all_append isWordChar n.toList
    ('=' :: '"' :: (v.toList ++ '"' :: tail)) hn.2 hhead
  have hsp := splitAtChar_some '"' v.toList tail (fun c hc => (hv c hc).1)
  simp only [execAttrStep, hd, ht, hsp]

theorem execAttrs_renderAttrs : ∀ e : List (String × String),
    (∀ p ∈ e, goodName p.1 ∧ goodValue p.2) →
    execAttrs (renderAttrsL e) = e.map (fun p => (p.1.toList, p.2.toList)) := by
  intro e
  induction e with
  | nil => intro _; rfl
  | cons p rest ih =>
    intro h
    obtain ⟨n, v⟩ := p
    obtain ⟨hn, hv⟩ := h (n, v) (by simp)
    have hrest := fun (q : String × String) (hq : q ∈ rest) => h q (by simp [hq])
    obtain ⟨nc, nt, hnl⟩ : ∃ nc nt, n.toList = nc :: nt := by
      rcases hl : n.toList with _ | ⟨nc, nt⟩
      · exact absurd hl hn.1
      · exact ⟨nc, nt, rfl⟩
    have hw : isWordChar nc = true := hn.2 nc (by rw [hnl]; simp)
    have hshape : renderAttrsL ((n, v) :: rest)
        = nc :: (nt ++ '=' :: '"' :: (v.toList ++ '"' :: ' ' :: renderAttrsL rest)) := by
      simp only [renderAttrsL, hnl, List.cons_append]
    have hstep := execAttrStep_render n v (' ' :: renderAttrsL rest) hn hv
    rw [hnl, List.cons_append] at hstep
    rw [hshape, execAttrs_cons_step hw hstep,
        execAttrs_cons_notWord (by decide : isWordChar ' ' = false),
        ih hrest]
    simp only [List.map_cons]
    rw [← hnl]

theorem asString_toList (s : String) : s.toList.asString = s := rfl

theorem map_pair_asString : ∀ e : List (String × String),
    (e.map (fun p => (p.1.toList, p.2.toList))).map
      (fun q => (q.1.asString, q.2.asString)) = e := by
  intro e
  induction e with
  | nil => rfl
  | cons p rest ih =>
    obtain ⟨a, b⟩ := p
    simp only [List.map_cons]
    rw [ih]
    rfl

theorem extractAttrs_render (e : List (String × String))
    (h : ∀ p ∈ e, goodName p.1 ∧ goodValue p.2) :
    extractAttrs (renderAttrsL e) = e := by
  unfold extractAttrs
  rw [execAttrs_renderAttrs e h, map_pair_asString]

/-! ## Scanning rendered fragments -/

theorem renderAttrsL_ne_nil {e : List (String × String)} (hne : e ≠ []) :
    renderAttrsL e ≠ [] := by
  cases e with
  | nil => exact absurd rfl hne
  | cons p rest =>
    obtain ⟨n, v⟩ := p
    simp [renderAttrsL]

theorem renderAttrsL_no_gt : ∀ e : List (String × String),
    (∀ p ∈ e, goodName p.1 ∧ goodValue p.2) →
    ∀ ch ∈ renderAttrsL e, ch ≠ '>' := by
  intro e
  induction e with
  | nil => intro _ ch hch; simp [renderAttrsL] at hch
  | cons p rest ih =>
    intro h ch hch
    obtain ⟨n, v⟩ := p
    obtain ⟨hn, hv⟩ := h (n, v) (by simp)
    have hrest := fun (q : String × String) (hq : q ∈ rest) => h q (by simp [hq])
    simp only [renderAttrsL, List.mem_append, List.mem_cons] at hch
    rcases hch with hname | heq | hquote | hval | hq2 | hsp | hr
    · exact isWordChar_ne_gt (hn.2 ch hname)
    · subst heq; decide
    · subst hquote; decide
    · exact (hv ch hval).2
    · subst hq2; decide
    · subst hsp; decide
    · exact ih hrest ch hr

theorem renderElem_append (e : List (String × String)) (X : List Char) :
    renderElemL e ++ X =
    '<' :: 't' :: 'i' :: 'c' :: 'k' :: 'e' :: 't' :: ' ' ::
      (renderAttrsL e ++ '/' :: '>' :: X) := by
  simp [renderElemL, List.cons_append, List.append_assoc]

theorem matchTicketAt_renderElem (e : List (String × String)) (X : List Char)
    (hne : e ≠ []) (hgood : ∀ p ∈ e, goodName p.1 ∧ goodValue p.2) :
    matchTicketAt (renderElemL e ++ X) = some (renderAttrsL e, X) := by
  rw [renderElem_append]
  exact matchTicketAt_elem (renderAttrsL e) X (renderAttrsL_ne_nil hne)
    (renderAttrsL_no_gt e hgood)

theorem scanTickets_renderSegs : ∀ segs : List (List (String × String) × String),
    (∀ sg ∈ segs, (sg.1 ≠ [] ∧ ∀ p ∈ sg.1, goodName p.1 ∧ goodValue p.2) ∧
      (∀ c ∈ sg.2.toList, c ≠ '<')) →
    scanTickets (renderSegsL segs) = segs.map (fun sg => renderAttrsL sg.1) := by
  intro segs
  induction segs with
  | nil => intro _; rfl
  | cons sg rest ih =>
    intro h
    obtain ⟨e, f⟩ := sg
    obtain ⟨⟨hne, hgood⟩, hf⟩ := h (e, f) (by simp)
    have hrest := fun (sg2 : List (String × String) × String) (h2 : sg2 ∈ rest) =>
      h sg2 (by simp [h2])
    have hmt := matchTicketAt_renderElem e (f.toList ++ renderSegsL rest) hne hgood
    rw [renderElem_append] at hmt
    rw [show renderSegsL ((e, f) :: rest)
          = renderElemL e ++ (f.toList ++ renderSegsL rest) from rfl,
        renderElem_append,
        scanTickets_cons_some hmt,
        scanTickets_filler f.toList (renderSegsL rest) hf,
        ih hrest]
    rfl

theorem matchFirstTicket_render (f0 : List Char) (e : List (String × String))
    (X : List Char) (h0 : ∀ c ∈ f0, c ≠ '<') (hne : e ≠ [])
    (hgood : ∀ p ∈ e, goodName p.1 ∧ goodValue p.2) :
    matchFirstTicket (f0 ++ (renderElemL e ++ X)) = some (renderAttrsL e) := by
  rw [matchFirstTicket_filler f0 _ h0]
  have hmt := matchTicketAt_renderElem e X hne hgood
  rw [renderElem_append] at hmt
  rw [renderElem_append]
  exact matchFirstTicket_cons_some hmt


theorem toList_asString (l : List Char) : l.asString.toList = l := rfl

theorem _getSoapClient_ok {c : Client} (htok : tokenTruthy c.authToken = true) :
    ∃ c1, _getSoapClient c = .ok c1 := by
  unfold _getSoapClient
  by_cases hs : c.soapClient
  · rw [if_pos hs]; exact ⟨c, rfl⟩
  · rw [if_neg hs, if_pos htok]; exact ⟨_, rfl⟩

/-- C8: authenticate stores the trimmed response body as the session token
and returns it on a successful transport response; on a non-success
transport outcome it fails with an Authentication error carrying the
transport status code and reason (both appear in the message). -/
theorem authenticate_spec (c : Client) (body : String) (st : Nat) (stx : String) :
    ((authenticate c (.success body)).res = .ok (jsTrim body)
      ∧ (authenticate c (.success body)).client.authToken = some (jsTrim body))
    ∧ ((authenticate c (.failure (some st) (some stx))).res
        = .error ("Authentication failed: " ++ toString st ++ " " ++ stx)
      ∧ strContainsB ("Authentication failed: " ++ toString st ++ " " ++ stx)
          (toString st) = true
      ∧ strContainsB ("Authentication failed: " ++ toString st ++ " " ++ stx)
          stx = true) := by
  refine ⟨⟨rfl, rfl⟩, rfl, ?_, ?_⟩
  · have h := strContainsB_append_mid "Authentication failed: " (toString st) (" " ++ stx)
    simpa [String.append_assoc] using h
  · exact strContainsB_append_end ("Authentication failed: " ++ toString st ++ " ") stx

/-- C10: a failed authenticate leaves the client state unchanged: the whole
client record (in particular authToken and soapClient) keeps its previous
value, and the result is an error. -/
theorem authenticate_failure_state_spec (c : Client) (st : Option Nat)
    (stx : Option String) :
    (authenticate c (.failure st stx)).client = c
    ∧ ∃ e, (authenticate c (.failure st stx)).res = .error e :=
  ⟨rfl, ⟨_, rfl⟩⟩

/-- C1 (counterexample): with the auth token absent (a fresh client),
getTicketDetails raises no precondition failure and performs a transport
call: on a one-ticket body it succeeds, and its request list is nonempty. -/
theorem precondition_rest_transport_cex :
    (getTicketDetails freshC "1" (.success "<ticket a=\"b\" />")).res = .ok [("a", "b")]
    ∧ (getTicketDetails freshC "1" (.success "<ticket a=\"b\" />")).calls
      = [Request.restGetTicket "https://h/api/dokuweb/ticket/1" none] := by
  constructor
  · rfl
  · rfl

/-- C1 (amended): only the SOAP-based operations (createTicket,
getKeywords) raise the precondition failure and perform no transport call
when the auth token is absent; getTicketDetails and searchTicketsByCreator
perform their transport call regardless, with a null token. -/
theorem precondition_soap_only_spec (c : Client)
    (hA : c.authToken = none) (hS : c.soapClient = false)
    (subject partnerId keyword : String) (opts : CreateTicketOptions)
    (so : SoapOutcome) (ch ts : Option String) (ko : KwOutcome)
    (tid login : String) (s m : Option Nat) (b1 b2 : HttpOutcome) :
    ((createTicket c subject partnerId keyword opts so).res
        = .error "authToken is missing. Call authenticate() first."
      ∧ (createTicket c subject partnerId keyword opts so).calls = [])
    ∧ ((getKeywords c ch ts ko).res
        = .error "authToken is missing. Call authenticate() first."
      ∧ (getKeywords c ch ts ko).calls = [])
    ∧ (getTicketDetails c tid b1).calls.length = 1
    ∧ (searchTicketsByCreator c login s m b2).calls.length = 1 := by
  have hg : _getSoapClient c = .error "authToken is missing. Call authenticate() first." := by
    unfold _getSoapClient
    rw [hS, hA]
    rfl
  refine ⟨⟨?_, ?_⟩, ⟨?_, ?_⟩, ?_, ?_⟩
  · unfold createTicket; rw [hg]
  · unfold createTicket; rw [hg]
  · unfold getKeywords; rw [hg]
  · unfold getKeywords; rw [hg]
  · unfold getTicketDetails
    cases b1 with
    | failure st stx => rfl
    | success body =>
      dsimp only
      rcases hm : matchFirstTicket body.toList with _ | g <;> rfl
  · unfold searchTicketsByCreator; cases b2 <;> rfl

/-- C1 (witness): the amended claim evaluated on a fresh client. -/
theorem precondition_soap_only_spec_witness :
    (createTicket freshC "s" "p" "k" {} (.resolved "x")).res
      = .error "authToken is missing. Call authenticate() first." :=
  (precondition_soap_only_spec freshC rfl rfl "s" "p" "k" {} (.resolved "x")
    none none (.rejected "y") "1" "bob" none none (.success "") (.success "")).1.1

/-- C2 (counterexample): a body holding exactly one self-closing ticket
element whose attribute value contains `>` (and no double quote).  The
claim promises the attribute mapping; the code finds no match and fails
(with the generic wrapper message, the internal not-found error being
replaced). -/
theorem getTicketDetails_gt_value_cex :
    (getTicketDetails authedC "1" (.success "<ticket a=\"1>2\" />")).res
      = .error "getTicketDetails REST error: undefined undefined" := by
  rfl

/-- C2 (amended): getTicketDetails on a body with no regex-matched ticket
element fails (surfaced as the generic REST-error message, since the
thrown not-found error carries no response and the catch interpolates
undefined); on a body holding a ticket element whose attribute names are
word runs and whose values contain neither a double quote nor the
character `>`, it returns every attribute with its value exactly as
written. -/
theorem getTicketDetails_extract_spec (c : Client) (tid : String) (pre : String)
    (attrs : List (String × String)) (suf : String)
    (hpre : ∀ ch ∈ pre.toList, ch ≠ '<')
    (hne : attrs ≠ [])
    (hgood : ∀ p ∈ attrs, goodName p.1 ∧ goodValue p.2) :
    (getTicketDetails c tid
        (.success ((pre.toList ++ (renderElemL attrs ++ suf.toList)).asString))).res
      = .ok attrs
    ∧ ∀ body : String, matchFirstTicket body.toList = none →
        (getTicketDetails c tid (.success body)).res
          = .error "getTicketDetails REST error: undefined undefined" := by
  constructor
  · have hm := matchFirstTicket_render pre.toList attrs suf.toList hpre hne hgood
    unfold getTicketDetails
    dsimp only
    rw [toList_asString, hm]
    dsimp only
    rw [extractAttrs_render attrs hgood]
  · intro body h
    unfold getTicketDetails
    dsimp only
    rw [h]
    rfl


/-- C2 (witness): the amended claim evaluated on a rendered one-element
body with two attributes, one value holding a space. -/
theorem getTicketDetails_extract_spec_witness :
    (getTicketDetails authedC "7"
        (.success (("".toList ++ (renderElemL [("a", "1"), ("b_2", "x y")]
          ++ "".toList)).asString))).res
      = .ok [("a", "1"), ("b_2", "x y")] :=
  (getTicketDetails_extract_spec authedC "7" "" [("a", "1"), ("b_2", "x y")] ""
    (by decide) (by decide) (by decide)).1

/-- C3: createTicket splits the resolved return string on the pipe; when
the first part is the literal true it returns the second part as ticketid
and the third as ticketnr (absent parts modelling undefined); otherwise it
raises a creation failure whose message contains the literal returned
string. -/
theorem createTicket_parse_spec (c : Client) (subject partnerId keyword : String)
    (opts : CreateTicketOptions) (ret : String)
    (htok : tokenTruthy c.authToken = true) :
    (((splitOnChar '|' ret.toList).map List.asString).head? = some "true" →
      (createTicket c subject partnerId keyword opts (.resolved ret)).res
        = .ok { ticketid := ((splitOnChar '|' ret.toList).map List.asString).get? 1
                ticketnr := ((splitOnChar '|' ret.toList).map List.asString).get? 2 })
    ∧ (((splitOnChar '|' ret.toList).map List.asString).head? ≠ some "true" →
      (createTicket c subject partnerId keyword opts (.resolved ret)).res
        = .error ("createTicket SOAP error: " ++ ("Ticket creation failed: " ++ ret))
      ∧ strContainsB ("createTicket SOAP error: " ++ ("Ticket creation failed: " ++ ret))
          ret = true) := by
  obtain ⟨c1, hc1⟩ := _getSoapClient_ok htok
  unfold createTicket
  rw [hc1]
  dsimp only
  constructor
  · intro h
    rw [if_pos h]
  · intro h
    rw [if_neg h]
    refine ⟨rfl, ?_⟩
    have h2 := strContainsB_append_end ("createTicket SOAP error: " ++ "Ticket creation failed: ") ret
    simpa [String.append_assoc] using h2

/-- C3 (witness): the two examples of the spec, true pipe 55 pipe
TK-2024-001 and false pipe ERR_DUP, evaluated. -/
theorem createTicket_parse_spec_witness :
    (createTicket authedC "s" "p" "k" {} (.resolved "true|55|TK-2024-001")).res
      = .ok { ticketid := some "55", ticketnr := some "TK-2024-001" }
    ∧ (createTicket authedC "s" "p" "k" {} (.resolved "false|ERR_DUP")).res
      = .error "createTicket SOAP error: Ticket creation failed: false|ERR_DUP" := by
  constructor
  · have h := (createTicket_parse_spec authedC "s" "p" "k" {} "true|55|TK-2024-001"
      (by decide)).1 (by decide)
    rw [h]
    rfl
  · have h := (createTicket_parse_spec authedC "s" "p" "k" {} "false|ERR_DUP"
      (by decide)).2 (by decide)
    rw [h.1]
    rfl


/-- C4: getKeywords on a parsed envelope with SUCCESS true returns the
DATA field unchanged; with SUCCESS false it raises a failure whose message
contains the envelope ERRORTEXT; on malformed JSON (a parse error) it
raises a failure. -/
theorem getKeywords_parse_spec (c : Client) (ch ts : Option String) (j : Json)
    (d e : Option Json) (m : String)
    (htok : tokenTruthy c.authToken = true) :
    ((jsGetField j "SUCCESS" = .ok (some (.bool true)) →
      jsGetField j "DATA" = .ok d →
        (getKeywords c ch ts (.resolved (.ok j))).res = .ok d)
    ∧ (jsGetField j "SUCCESS" = .ok (some (.bool false)) →
      jsGetField j "ERRORTEXT" = .ok e →
        (getKeywords c ch ts (.resolved (.ok j))).res
          = .error ("getKeywords SOAP error: "
              ++ ("getKeywords failed: " ++ optJsonDisplay e))
        ∧ ∀ etext, e = some (.str etext) →
            strContainsB ("getKeywords SOAP error: "
              ++ ("getKeywords failed: " ++ optJsonDisplay e)) etext = true)
    ∧ (getKeywords c ch ts (.resolved (.error m))).res
        = .error ("getKeywords SOAP error: " ++ m)) := by
  obtain ⟨c1, hc1⟩ := _getSoapClient_ok htok
  refine ⟨?_, ?_, ?_⟩
  · intro hs hd
    unfold getKeywords
    rw [hc1]
    dsimp only
    rw [hs]
    dsimp only
    rw [if_pos (by decide : jsTruthy (some (.bool true)) = true)]
    rw [hd]
  · intro hs he
    unfold getKeywords
    rw [hc1]
    dsimp only
    rw [hs]
    dsimp only
    rw [if_neg (by decide : ¬ jsTruthy (some (.bool false)) = true)]
    rw [he]
    refine ⟨rfl, ?_⟩
    intro etext het
    subst het
    have h2 := strContainsB_append_end
      ("getKeywords SOAP error: " ++ "getKeywords failed: ") etext
    simpa [optJsonDisplay, jsDisplay, String.append_assoc] using h2
  · unfold getKeywords
    rw [hc1]

/-- C4 (witness): the spec examples evaluated: a SUCCESS true envelope
returns its one-element DATA array unchanged, and a SUCCESS false envelope
with ERRORTEXT no access fails with a message containing no access. -/
theorem getKeywords_parse_spec_witness :
    (getKeywords authedC none none (.resolved (.ok (.obj
        [("SUCCESS", .bool true),
         ("DATA", .arr [.obj [("KEYWORD", .str "Mieterhöhung")]])])))).res
      = .ok (some (.arr [.obj [("KEYWORD", .str "Mieterhöhung")]]))
    ∧ (getKeywords authedC none none (.resolved (.ok (.obj
        [("SUCCESS", .bool false), ("ERRORTEXT", .str "no access")])))).res
      = .error "getKeywords SOAP error: getKeywords failed: no access"
    ∧ strContainsB "getKeywords SOAP error: getKeywords failed: no access"
        "no access" = true := by
  refine ⟨?_, ?_, ?_⟩
  · exact (getKeywords_parse_spec authedC none none
      (.obj [("SUCCESS", .bool true),
             ("DATA", .arr [.obj [("KEYWORD", .str "Mieterhöhung")]])])
      (some (.arr [.obj [("KEYWORD", .str "Mieterhöhung")]])) none "x"
      (by decide)).1 rfl rfl
  · have h := ((getKeywords_parse_spec authedC none none
      (.obj [("SUCCESS", .bool false), ("ERRORTEXT", .str "no access")])
      none (some (.str "no access")) "x" (by decide)).2.1 rfl rfl).1
    rw [h]
    simp [optJsonDisplay, jsDisplay]
  · have h := ((getKeywords_parse_spec authedC none none
      (.obj [("SUCCESS", .bool false), ("ERRORTEXT", .str "no access")])
      none (some (.str "no access")) "x" (by decide)).2.1 rfl rfl).2
      "no access" rfl
    simpa [optJsonDisplay, jsDisplay] using h

/-- C5 (counterexample): a fragment holding exactly two self-closing
ticket elements, the second with a `>` inside an attribute value; the
extractor used by searchTicketsByCreator returns one mapping, not two. -/
theorem searchTickets_gt_value_cex :
    (searchTicketsByCreator authedC "bob" none none
        (.success "<tickets><ticket a=\"1\" /><ticket b=\"2>3\" /></tickets>")).res
      = .ok [[("a", "1")]] := by
  rfl

/-- C5 (amended): for a fragment of N rendered self-closing ticket
elements separated by filler text without `<`, each element carrying at
least one attribute with a word-run name and a value free of double
quotes and of `>`, searchTicketsByCreator returns exactly the N attribute
maps in document order with values decoded exactly as written. -/
theorem searchTickets_extract_spec (c : Client) (login : String)
    (s m : Option Nat) (f0 : String)
    (segs : List (List (String × String) × String))
    (h0 : ∀ ch ∈ f0.toList, ch ≠ '<')
    (hsegs : ∀ sg ∈ segs, (sg.1 ≠ [] ∧ ∀ p ∈ sg.1, goodName p.1 ∧ goodValue p.2)
        ∧ ∀ ch ∈ sg.2.toList, ch ≠ '<') :
    (searchTicketsByCreator c login s m
        (.success ((f0.toList ++ renderSegsL segs).asString))).res
      = .ok (segs.map (fun sg => sg.1)) := by
  unfold searchTicketsByCreator
  dsimp only
  rw [toList_asString, scanTickets_filler f0.toList (renderSegsL segs) h0,
      scanTickets_renderSegs segs hsegs, List.map_map]
  have hmap : segs.map (extractAttrs ∘ fun sg => renderAttrsL sg.1)
      = segs.map (fun sg => sg.1) := by
    apply List.map_congr_left
    intro sg hsg
    exact extractAttrs_render sg.1 ((hsegs sg hsg).1.2)
  rw [hmap]

/-- C5 (witness): the amended claim evaluated on a two-element fragment. -/
theorem searchTickets_extract_spec_witness :
    (searchTicketsByCreator authedC "bob" none none
        (.success (("".toList
          ++ renderSegsL [([("a", "1")], ""), ([("b", "2")], "")]).asString))).res
      = .ok [[("a", "1")], [("b", "2")]] :=
  searchTickets_extract_spec authedC "bob" none none ""
    [([("a", "1")], ""), ([("b", "2")], "")] (by decide) (by decide)

/-- C6: a response body in which the ticket regex finds no match yields
the empty list as a successful (non-error) result. -/
theorem searchTickets_empty_spec (c : Client) (login : String)
    (s m : Option Nat) (body : String)
    (h : scanTickets body.toList = []) :
    (searchTicketsByCreator c login s m (.success body)).res = .ok [] := by
  unfold searchTicketsByCreator
  dsimp only
  rw [h]
  rfl

/-- C6 (witness): an empty tickets root evaluated. -/
theorem searchTickets_empty_spec_witness :
    (searchTicketsByCreator authedC "bob" none none
        (.success "<tickets></tickets>")).res = .ok [] :=
  searchTickets_empty_spec authedC "bob" none none "<tickets></tickets>" (by decide)

/-- C7: the search request carries the supplied start and max unmodified
(defaulting to 1 and 10 when not supplied) and exactly one filter triple:
field CREATE_BY, the equality operator (wire form =), and the supplied
creator login as value; exactly one request is made whatever the
outcome. -/
theorem searchTickets_request_spec (c : Client) (login : String) (s m : Nat)
    (o1 o2 : HttpOutcome) :
    (searchTicketsByCreator c login (some s) (some m) o1).calls
      = [Request.restSearch (c.baseUrl ++ "/dokuweb/tickets/")
          { authtoken := c.authToken, start := s, max := m, field_count := 1,
            f1 := "CREATE_BY", f1_op := "=", f1_val := login }]
    ∧ (searchTicketsByCreator c login none none o2).calls
      = [Request.restSearch (c.baseUrl ++ "/dokuweb/tickets/")
          { authtoken := c.authToken, start := 1, max := 10, field_count := 1,
            f1 := "CREATE_BY", f1_op := "=", f1_val := login }] := by
  constructor
  · cases o1 <;> rfl
  · cases o2 <;> rfl

/-- C9 (counterexample): a getTicketDetails parse failure (no ticket
element in the body) surfaces with the operation name but with literal
undefined placeholders in place of the underlying cause: the message does
not contain the internal not-found text. -/
theorem error_cause_dropped_cex :
    (getTicketDetails authedC "1" (.success "<nothing/>")).res
      = .error "getTicketDetails REST error: undefined undefined"
    ∧ strContainsB "getTicketDetails REST error: undefined undefined"
        "No <ticket> element found in response." = false := by
  constructor
  · rfl
  · decide

/-- C9 (amended): SOAP operations wrap failures with the operation name
and the underlying error message; REST operations wrap with the operation
name and the transport status and reason, so a parse failure (missing
ticket element) surfaces with the operation name but with undefined
placeholders instead of the underlying cause; authenticate wraps with an
Authentication label and the transport status and reason. -/
theorem error_wrapping_spec (c : Client) (subject partnerId keyword : String)
    (opts : CreateTicketOptions) (m : String) (ch ts : Option String)
    (tid login : String) (s mx : Option Nat) (st : Nat) (stx : String)
    (body : String) (htok : tokenTruthy c.authToken = true) :
    ((createTicket c subject partnerId keyword opts (.rejected m)).res
        = .error ("createTicket SOAP error: " ++ m)
      ∧ strContainsB ("createTicket SOAP error: " ++ m) m = true)
    ∧ (getKeywords c ch ts (.rejected m)).res
        = .error ("getKeywords SOAP error: " ++ m)
    ∧ (getTicketDetails c tid (.failure (some st) (some stx))).res
        = .error ("getTicketDetails REST error: " ++ toString st ++ " " ++ stx)
    ∧ (matchFirstTicket body.toList = none →
        (getTicketDetails c tid (.success body)).res
          = .error "getTicketDetails REST error: undefined undefined")
    ∧ (searchTicketsByCreator c login s mx (.failure (some st) (some stx))).res
        = .error ("searchTicketsByCreator REST error: " ++ toString st ++ " " ++ stx)
    ∧ (authenticate c (.failure (some st) (some stx))).res
        = .error ("Authentication failed: " ++ toString st ++ " " ++ stx) := by
  obtain ⟨c1, hc1⟩ := _getSoapClient_ok htok
  refine ⟨⟨?_, ?_⟩, ?_, ?_, ?_, ?_, ?_⟩
  · unfold createTicket; rw [hc1]
  · exact strContainsB_append_end "createTicket SOAP error: " m
  · unfold getKeywords; rw [hc1]
  · rfl
  · intro h
    unfold getTicketDetails
    dsimp only
    rw [h]
    rfl
  · rfl
  · rfl

/-- C9 (witness): the amended claim evaluated for a rejected SOAP call and
a 404 transport failure. -/
theorem error_wrapping_spec_witness :
    (createTicket authedC "s" "p" "k" {} (.rejected "boom")).res
      = .error "createTicket SOAP error: boom" :=
  (error_wrapping_spec authedC "s" "p" "k" {} "boom" none none "1" "bob"
    none none 404 "Not Found" "<x/>" (by decide)).1.1
